import Mathlib

/-!
Verification of the stats-and-telemetry engine design of the amazon-ecs-agent
repository, together with the S3-backed multi-source file downloader.

The downloader (`s3BucketDownloader.download`, `s3Downloader.downloadFile`)
is embedded directly from the Go source of the `cache` package.  The stats
engine itself (statistic windows, the task index, the publish loop, restart
reconciliation and the volume-metrics fetcher) is not part of the source
tree given here — only its unit tests are — so those components are
modelled from the design specification, constrained by the behaviour the
unit tests exercise.
-/

/-! ## Statistic Window (stats queue)

Modelled from the spec: the `queue` type of the stats package is absent from
the source tree.  A Statistic Window is a bounded, ordered buffer of raw
samples; `add` inserts a sample and evicts the oldest when the window is at
capacity (FIFO); `aggregate` produces a {min, max, sum, count} set over the
current contents, or "no data" for an empty window.  Samples are modelled
as natural numbers.
-/

/-- An aggregated statistic set {minimum, maximum, sum, count} over the
samples currently in a window. -/
structure CWStatsSet where
  min : Nat
  max : Nat
  sum : Nat
  sampleCount : Nat
deriving DecidableEq

/-- A fixed-capacity, time-ordered buffer of raw samples: the oldest sample
sits at the head of `buffer`, the newest at the end. -/
structure StatsQueue where
  maxSize : Nat
  buffer : List Nat
deriving DecidableEq

/-- Modelled from the spec: `add(sample)` inserts a raw sample, evicting the
oldest buffered sample first when the window is already at capacity. -/
def StatsQueue.add (q : StatsQueue) (s : Nat) : StatsQueue :=
  { q with buffer := (if q.maxSize ≤ q.buffer.length then q.buffer.drop 1 else q.buffer) ++ [s] }

/-- Modelled from the spec: `aggregate()` returns the {min, max, sum, count}
set over all currently buffered samples, or `none` ("no data") when the
window holds no samples. -/
def StatsQueue.aggregate (q : StatsQueue) : Option CWStatsSet :=
  match q.buffer with
  | [] => none
  | x :: xs => some ⟨xs.foldl Nat.min x, xs.foldl Nat.max x, xs.foldl (· + ·) x, xs.length + 1⟩

/-- Minimum of a non-empty sample list (`0` for the empty list, which is
never used under that guard). -/
def listMin : List Nat → Nat
  | [] => 0
  | x :: xs => xs.foldl Nat.min x

/-- Maximum of a non-empty sample list. -/
def listMax : List Nat → Nat
  | [] => 0
  | x :: xs => xs.foldl Nat.max x

/-- Sum of a non-empty sample list, folded the way `aggregate` folds it. -/
def listSum : List Nat → Nat
  | [] => 0
  | x :: xs => xs.foldl (· + ·) x

theorem StatsQueue.add_maxSize (q : StatsQueue) (s : Nat) : (q.add s).maxSize = q.maxSize := rfl

theorem StatsQueue.foldl_add_maxSize (l : List Nat) (q : StatsQueue) :
    (l.foldl StatsQueue.add q).maxSize = q.maxSize := by
  induction l generalizing q with
  | nil => rfl
  | cons s t ih => simpa [List.foldl_cons] using ih (q.add s)

/-- The buffer obtained by folding `add` over a sample list is the suffix of
length at most `N` of everything inserted so far. -/
theorem StatsQueue.foldl_add_buffer (N : Nat) (hN : 0 < N) (l : List Nat) :
    ∀ b : List Nat, b.length ≤ N →
      (l.foldl StatsQueue.add ⟨N, b⟩).buffer = (b ++ l).drop ((b ++ l).length - N) := by
  induction l with
  | nil =>
    intro b hb
    simp [Nat.sub_eq_zero_of_le, hb]
  | cons s t ih =>
    intro b hb
    have hstep : StatsQueue.add ⟨N, b⟩ s =
        ⟨N, (if N ≤ b.length then b.drop 1 else b) ++ [s]⟩ := rfl
    rw [List.foldl_cons, hstep]
    by_cases hfull : N ≤ b.length
    · have hblen : b.length = N := Nat.le_antisymm hb hfull
      have hlen : ((b.drop 1 ++ [s])).length ≤ N := by
        simp only [List.length_append, List.length_drop, List.length_cons, List.length_nil]
        omega
      rw [if_pos hfull, ih _ hlen]
      have h1 : b.drop 1 ++ [s] ++ t = (b ++ s :: t).drop 1 := by
        rw [List.drop_append_of_le_length (by omega)]
        simp
      rw [h1, List.drop_drop]
      congr 1
      simp only [List.length_append, List.length_drop, List.length_cons, List.length_nil]
      omega
    · have hlt : b.length < N := Nat.lt_of_not_le hfull
      have hlen : (b ++ [s]).length ≤ N := by
        simp only [List.length_append, List.length_cons, List.length_nil]
        omega
      rw [if_neg hfull, ih _ hlen]
      simp

/-- C1: for every Statistic Window of capacity `N > 0` and every sequence of
`add` calls longer than `N`, a subsequent `aggregate` returns the
{minimum, maximum, sum, count} set computed over exactly the `N` most
recently added samples, the older samples having been evicted in FIFO
order. -/
theorem statsQueue_fifo_aggregate (N : Nat) (samples : List Nat)
    (hN : 0 < N) (hlen : N < samples.length) :
    (samples.foldl StatsQueue.add ⟨N, []⟩).aggregate =
      some ⟨listMin (samples.drop (samples.length - N)),
            listMax (samples.drop (samples.length - N)),
            listSum (samples.drop (samples.length - N)), N⟩ ∧
    (samples.drop (samples.length - N)).length = N := by
  have hbuf : (samples.foldl StatsQueue.add ⟨N, []⟩).buffer =
      samples.drop (samples.length - N) := by
    have := StatsQueue.foldl_add_buffer N hN samples [] (by simp)
    simpa using this
  have hdlen : (samples.drop (samples.length - N)).length = N := by
    rw [List.length_drop]
    omega
  refine ⟨?_, hdlen⟩
  have hms : (samples.foldl StatsQueue.add ⟨N, []⟩).maxSize = N :=
    StatsQueue.foldl_add_maxSize samples ⟨N, []⟩
  have hq : samples.foldl StatsQueue.add ⟨N, []⟩ =
      ⟨N, samples.drop (samples.length - N)⟩ := by
    cases hqe : samples.foldl StatsQueue.add ⟨N, []⟩ with
    | mk ms bf =>
      have h1 : ms = N := by rw [← hms, hqe]
      have h2 : bf = samples.drop (samples.length - N) := by rw [← hbuf, hqe]
      rw [h1, h2]
  rw [hq]
  cases hdrop : samples.drop (samples.length - N) with
  | nil => rw [hdrop] at hdlen; simp at hdlen; omega
  | cons x xs =>
    have hc : xs.length + 1 = N := by
      rw [hdrop] at hdlen
      simpa using hdlen
    simp [StatsQueue.aggregate, listMin, listMax, listSum, hc]

/-- Witness for C1 at capacity 2 and samples [5, 1, 7]. -/
theorem statsQueue_fifo_aggregate_witness :
    (([5, 1, 7] : List Nat).foldl StatsQueue.add ⟨2, []⟩).aggregate =
      some ⟨listMin (([5, 1, 7] : List Nat).drop (([5, 1, 7] : List Nat).length - 2)),
            listMax (([5, 1, 7] : List Nat).drop (([5, 1, 7] : List Nat).length - 2)),
            listSum (([5, 1, 7] : List Nat).drop (([5, 1, 7] : List Nat).length - 2)), 2⟩ ∧
    (([5, 1, 7] : List Nat).drop (([5, 1, 7] : List Nat).length - 2)).length = 2 :=
  statsQueue_fifo_aggregate 2 [5, 1, 7] (by decide) (by decide)

/-- C8: `aggregate` on a window holding zero samples returns the
distinguished "no data" result `none`, which differs from `some` of any
aggregated set, in particular from the all-zero set. -/
theorem statsQueue_aggregate_empty (N : Nat) :
    StatsQueue.aggregate ⟨N, []⟩ = none ∧
    StatsQueue.aggregate ⟨N, []⟩ ≠ some ⟨0, 0, 0, 0⟩ := by
  constructor
  · rfl
  · intro h
    simp [StatsQueue.aggregate] at h

/-! ## Task Index and Stats Engine state

Modelled from the spec: the `DockerStatsEngine` type of the stats package is
absent from the source tree; only its unit tests are present.  The engine's
mutable state is the Task Index: a map from task ARN to the containers
actively metered for resource stats, a map from task ARN to the containers
metered for health checks, and a cache of task-definition identities
(family and version).  The field `startedRoutines` records, in order, every
container for which a resource-collection routine was started.  Maps are
association lists keyed by strings.
-/

/-- A task as the Resolver reports it: ARN, task-definition family and
version, and whether its lifecycle status is terminal. -/
structure ECSTask where
  arn : String
  family : String
  version : String
  terminal : Bool
deriving DecidableEq

/-- Container metadata as the Resolver reports it; a non-empty
`healthCheckType` means the container has a health check configured. -/
structure DockerContainerMeta where
  healthCheckType : String
deriving DecidableEq

/-- The engine configuration bits the Task Index operations consult. -/
structure StatsEngineConfig where
  disableMetrics : Bool
deriving DecidableEq

/-- The metadata resolver consumed by the engine (an external collaborator):
resolves a container identifier to its owning task and to its container
metadata, returning `none` for unresolvable identifiers. -/
structure Resolver where
  resolveTask : String → Option ECSTask
  resolveContainer : String → Option DockerContainerMeta

/-- The engine's Task Index state. -/
structure StatsEngine where
  tasksToContainers : List (String × List String)
  tasksToHealthCheckContainers : List (String × List String)
  tasksToDefinitions : List (String × String × String)
  startedRoutines : List String
deriving DecidableEq

/-- The engine state before any container has been observed. -/
def emptyEngine : StatsEngine := ⟨[], [], [], []⟩

/-- First-match lookup in an association list. -/
def lookupMap {α : Type} (m : List (String × α)) (k : String) : Option α :=
  (m.find? (fun p => p.1 == k)).map Prod.snd

/-- Replace the value at the first occurrence of key `k` (append if the key
is absent). -/
def setMap {α : Type} (m : List (String × α)) (k : String) (v : α) : List (String × α) :=
  match m with
  | [] => [(k, v)]
  | (k', v') :: rest => if k' = k then (k, v) :: rest else (k', v') :: setMap rest k v

/-- Append container `cid` to the bucket of task `arn`, creating the bucket
if the task is not yet in the map. -/
def addToBucket (m : List (String × List String)) (arn cid : String) :
    List (String × List String) :=
  match lookupMap m arn with
  | none => m ++ [(arn, [cid])]
  | some cs => setMap m arn (cs ++ [cid])

/-- Whether container `cid` is present in any task's bucket. -/
def containerTracked (m : List (String × List String)) (cid : String) : Bool :=
  m.any (fun p => p.2.contains cid)

/-- Modelled from the spec: on the first successful resolution of a task the
engine records its family and version in the task-definition cache; later
resolutions leave the recorded identity untouched. -/
def insertDefinition (defs : List (String × String × String)) (arn fam ver : String) :
    List (String × String × String) :=
  match lookupMap defs arn with
  | some _ => defs
  | none => defs ++ [(arn, fam, ver)]

/-- All (task ARN, container id) pairs tracked in a task-to-containers map. -/
def trackedPairs (m : List (String × List String)) : List (String × String) :=
  m.flatMap (fun p => p.2.map (fun c => (p.1, c)))

/-- Modelled from the spec: `addContainer` (the `addAndStartStatsContainer`
path).  The container is resolved via the Resolver; on resolution failure,
on a terminal owning task, or on a task with no definition family, nothing
is added.  Otherwise the task's definition identity is cached and then: if
metrics collection is globally disabled the container is placed only in the
health-check map and no resource-collection routine is started; otherwise a
tracker is created and started in the resource map, and the container is
additionally registered for health checks when its metadata carries a
health-check type.  A duplicate add of an already-tracked container is a
no-op in either map. -/
def addContainer (cfg : StatsEngineConfig) (res : Resolver) (e : StatsEngine)
    (dockerID : String) : StatsEngine :=
  match res.resolveTask dockerID with
  | none => e
  | some task =>
    if task.terminal then e
    else if task.family = "" then e
    else
      let e1 : StatsEngine :=
        { e with tasksToDefinitions := insertDefinition e.tasksToDefinitions task.arn task.family task.version }
      if cfg.disableMetrics then
        if containerTracked e1.tasksToHealthCheckContainers dockerID then e1
        else { e1 with tasksToHealthCheckContainers := addToBucket e1.tasksToHealthCheckContainers task.arn dockerID }
      else
        let healthChecked : Bool :=
          match res.resolveContainer dockerID with
          | some c => c.healthCheckType != ""
          | none => false
        let e2 : StatsEngine :=
          if containerTracked e1.tasksToContainers dockerID then e1
          else { e1 with tasksToContainers := addToBucket e1.tasksToContainers task.arn dockerID,
                         startedRoutines := e1.startedRoutines ++ [dockerID] }
        if healthChecked && !(containerTracked e2.tasksToHealthCheckContainers dockerID) then
          { e2 with tasksToHealthCheckContainers := addToBucket e2.tasksToHealthCheckContainers task.arn dockerID }
        else e2

/-- Modelled from the spec: restart reconciliation lists all containers the
runtime currently reports as present and adds each one through the same
`addContainer` path as live add events, starting from no assumed in-memory
state. -/
def synchronizeState (cfg : StatsEngineConfig) (res : Resolver) (listed : List String) :
    StatsEngine :=
  listed.foldl (addContainer cfg res) emptyEngine

theorem lookupMap_cons {α : Type} (k' : String) (v' : α) (rest : List (String × α)) (k : String) :
    lookupMap ((k', v') :: rest) k = if k' = k then some v' else lookupMap rest k := by
  by_cases h : k' = k <;> simp [lookupMap, List.find?_cons, h]

theorem lookupMap_append {α : Type} (m1 m2 : List (String × α)) (k : String) :
    lookupMap (m1 ++ m2) k =
      match lookupMap m1 k with
      | some v => some v
      | none => lookupMap m2 k := by
  induction m1 with
  | nil => simp [lookupMap]
  | cons p rest ih =>
    rw [List.cons_append, lookupMap_cons, lookupMap_cons]
    by_cases h : p.1 = k <;> simp [h, ih]

theorem addToBucket_cons (k : String) (v : List String) (rest : List (String × List String))
    (arn cid : String) :
    addToBucket ((k, v) :: rest) arn cid =
      if k = arn then (arn, v ++ [cid]) :: rest
      else (k, v) :: addToBucket rest arn cid := by
  by_cases h : k = arn
  · simp [addToBucket, lookupMap_cons, h, setMap]
  · cases hl : lookupMap rest arn with
    | none => simp [addToBucket, lookupMap_cons, h, hl, setMap]
    | some cs => simp [addToBucket, lookupMap_cons, h, hl, setMap]

theorem trackedPairs_nil : trackedPairs [] = [] := rfl

theorem trackedPairs_cons (k : String) (v : List String) (rest : List (String × List String)) :
    trackedPairs ((k, v) :: rest) = v.map (fun c => (k, c)) ++ trackedPairs rest := by
  simp [trackedPairs]

/-- `addToBucket` inserts exactly one new (task, container) pair, up to
permutation of the tracked-pair listing. -/
theorem trackedPairs_addToBucket (m : List (String × List String)) (arn cid : String) :
    List.Perm (trackedPairs (addToBucket m arn cid)) ((arn, cid) :: trackedPairs m) := by
  induction m with
  | nil => simp [addToBucket, lookupMap, trackedPairs]
  | cons p rest ih =>
    cases p with
    | mk k v =>
      rw [addToBucket_cons]
      by_cases h : k = arn
      · subst h
        rw [if_pos rfl, trackedPairs_cons, trackedPairs_cons]
        simp
      · rw [if_neg h, trackedPairs_cons, trackedPairs_cons]
        exact ((ih.append_left _).trans List.perm_middle)

theorem mem_trackedPairs_addToBucket (m : List (String × List String)) (arn cid : String)
    (p : String × String) :
    p ∈ trackedPairs (addToBucket m arn cid) ↔ p = (arn, cid) ∨ p ∈ trackedPairs m := by
  rw [(trackedPairs_addToBucket m arn cid).mem_iff]
  simp

theorem mem_trackedPairs (m : List (String × List String)) (a c : String) :
    (a, c) ∈ trackedPairs m ↔ ∃ cs, (a, cs) ∈ m ∧ c ∈ cs := by
  simp only [trackedPairs, List.mem_flatMap]
  constructor
  · rintro ⟨⟨k, cs⟩, hm, hmem⟩
    rcases List.mem_map.mp hmem with ⟨c', hc', heq⟩
    have hk : k = a := (Prod.mk.injEq _ _ _ _).mp heq |>.1
    have hc : c' = c := (Prod.mk.injEq _ _ _ _).mp heq |>.2
    exact ⟨cs, by rwa [hk] at hm, by rwa [hc] at hc'⟩
  · rintro ⟨cs, hm, hc⟩
    exact ⟨(a, cs), hm, List.mem_map.mpr ⟨c, hc, rfl⟩⟩

theorem mem_map_snd_iff {α β : Type} (l : List (α × β)) (b : β) :
    b ∈ l.map Prod.snd ↔ ∃ a, (a, b) ∈ l := by
  constructor
  · intro h
    rcases List.mem_map.mp h with ⟨⟨a, b'⟩, hm, hsnd⟩
    exact ⟨a, by simpa [← hsnd] using hm⟩
  · rintro ⟨a, h⟩
    exact List.mem_map.mpr ⟨(a, b), h, rfl⟩

theorem containerTracked_iff_exists (m : List (String × List String)) (cid : String) :
    containerTracked m cid = true ↔ ∃ a, (a, cid) ∈ trackedPairs m := by
  rw [containerTracked, List.any_eq_true]
  constructor
  · rintro ⟨⟨k, cs⟩, hm, hc⟩
    exact ⟨k, (mem_trackedPairs m k cid).mpr ⟨cs, hm, by simpa using hc⟩⟩
  · rintro ⟨a, ha⟩
    rcases (mem_trackedPairs m a cid).mp ha with ⟨cs, hm, hc⟩
    exact ⟨(a, cs), hm, by simpa using hc⟩

theorem containerTracked_iff_mem_snd (m : List (String × List String)) (cid : String) :
    containerTracked m cid = true ↔ cid ∈ (trackedPairs m).map Prod.snd := by
  rw [containerTracked_iff_exists, mem_map_snd_iff]

theorem containerTracked_addToBucket (m : List (String × List String)) (arn cid cid' : String) :
    containerTracked (addToBucket m arn cid) cid' = true ↔
      cid' = cid ∨ containerTracked m cid' = true := by
  rw [containerTracked_iff_exists, containerTracked_iff_exists]
  constructor
  · rintro ⟨a, ha⟩
    rcases (mem_trackedPairs_addToBucket m arn cid _).mp ha with h | h
    · exact Or.inl (by simpa using congrArg Prod.snd h)
    · exact Or.inr ⟨a, h⟩
  · rintro (h | ⟨a, ha⟩)
    · exact ⟨arn, (mem_trackedPairs_addToBucket m arn cid _).mpr (Or.inl (by rw [h]))⟩
    · exact ⟨a, (mem_trackedPairs_addToBucket m arn cid _).mpr (Or.inr ha)⟩

theorem lookupMap_insertDefinition (defs : List (String × String × String))
    (a f v : String) : (lookupMap (insertDefinition defs a f v) a).isSome := by
  cases hl : lookupMap defs a with
  | some d => simp [insertDefinition, hl]
  | none =>
    simp only [insertDefinition, hl]
    rw [lookupMap_append, hl]
    simp [lookupMap_cons]

theorem insertDefinition_idem (defs : List (String × String × String)) (a f v : String) :
    insertDefinition (insertDefinition defs a f v) a f v = insertDefinition defs a f v := by
  have h := lookupMap_insertDefinition defs a f v
  cases hl : lookupMap (insertDefinition defs a f v) a with
  | none => rw [hl] at h; simp at h
  | some d =>
    show (match lookupMap (insertDefinition defs a f v) a with
          | some _ => insertDefinition defs a f v
          | none => insertDefinition defs a f v ++ [(a, f, v)]) =
        insertDefinition defs a f v
    rw [hl]

/-! ### Unfolding lemmas for `addContainer` -/

theorem addContainer_of_resolve_none (cfg : StatsEngineConfig) (res : Resolver)
    (e : StatsEngine) (cid : String) (h : res.resolveTask cid = none) :
    addContainer cfg res e cid = e := by
  simp [addContainer, h]

theorem addContainer_of_terminal (cfg : StatsEngineConfig) (res : Resolver)
    (e : StatsEngine) (cid : String) (t : ECSTask)
    (h : res.resolveTask cid = some t) (ht : t.terminal = true) :
    addContainer cfg res e cid = e := by
  simp [addContainer, h, ht]

theorem addContainer_of_no_family (cfg : StatsEngineConfig) (res : Resolver)
    (e : StatsEngine) (cid : String) (t : ECSTask)
    (h : res.resolveTask cid = some t) (ht : t.terminal = false) (hf : t.family = "") :
    addContainer cfg res e cid = e := by
  simp [addContainer, h, ht, hf]

/-- The value the enabled-path health registration tests: whether the
resolved container metadata carries a health-check type. -/
def healthCheckedContainer (res : Resolver) (cid : String) : Bool :=
  match res.resolveContainer cid with
  | some c => c.healthCheckType != ""
  | none => false

theorem addContainer_enabled (cfg : StatsEngineConfig) (res : Resolver)
    (e : StatsEngine) (cid : String) (t : ECSTask)
    (h : res.resolveTask cid = some t) (ht : t.terminal = false) (hf : ¬t.family = "")
    (hdis : cfg.disableMetrics = false) :
    addContainer cfg res e cid =
      (let e1 : StatsEngine :=
        { e with tasksToDefinitions := insertDefinition e.tasksToDefinitions t.arn t.family t.version }
       let e2 : StatsEngine :=
        if containerTracked e.tasksToContainers cid then e1
        else { e1 with tasksToContainers := addToBucket e.tasksToContainers t.arn cid,
                       startedRoutines := e.startedRoutines ++ [cid] }
       if healthCheckedContainer res cid && !(containerTracked e.tasksToHealthCheckContainers cid) then
        { e2 with tasksToHealthCheckContainers := addToBucket e.tasksToHealthCheckContainers t.arn cid }
       else e2) := by
  simp only [addContainer, h, ht, hf, hdis, healthCheckedContainer, Bool.false_eq_true, if_false]
  split <;> split <;> simp_all [apply_ite StatsEngine.tasksToHealthCheckContainers]

theorem addContainer_disabled (cfg : StatsEngineConfig) (res : Resolver)
    (e : StatsEngine) (cid : String) (t : ECSTask)
    (h : res.resolveTask cid = some t) (ht : t.terminal = false) (hf : ¬t.family = "")
    (hdis : cfg.disableMetrics = true) :
    addContainer cfg res e cid =
      (let e1 : StatsEngine :=
        { e with tasksToDefinitions := insertDefinition e.tasksToDefinitions t.arn t.family t.version }
       if containerTracked e.tasksToHealthCheckContainers cid then e1
       else { e1 with tasksToHealthCheckContainers := addToBucket e.tasksToHealthCheckContainers t.arn cid }) := by
  simp [addContainer, h, ht, hf, hdis]

theorem addContainer_tc_untracked (cfg : StatsEngineConfig) (res : Resolver)
    (e : StatsEngine) (cid : String) (t : ECSTask)
    (h : res.resolveTask cid = some t) (ht : t.terminal = false) (hf : ¬t.family = "")
    (hdis : cfg.disableMetrics = false)
    (htr : containerTracked e.tasksToContainers cid = false) :
    (addContainer cfg res e cid).tasksToContainers = addToBucket e.tasksToContainers t.arn cid := by
  rw [addContainer_enabled cfg res e cid t h ht hf hdis]
  simp [htr, apply_ite StatsEngine.tasksToContainers]

theorem addContainer_tc_tracked (cfg : StatsEngineConfig) (res : Resolver)
    (e : StatsEngine) (cid : String) (t : ECSTask)
    (h : res.resolveTask cid = some t) (ht : t.terminal = false) (hf : ¬t.family = "")
    (hdis : cfg.disableMetrics = false)
    (htr : containerTracked e.tasksToContainers cid = true) :
    (addContainer cfg res e cid).tasksToContainers = e.tasksToContainers := by
  rw [addContainer_enabled cfg res e cid t h ht hf hdis]
  simp [htr, apply_ite StatsEngine.tasksToContainers]

/-- C5: `addContainer` is idempotent — adding the same container identifier
twice leaves the Task Index in the same state as adding it once; and, when a
previously untracked, resolvable container is added with metrics enabled,
exactly one (task, container) Tracker entry for that identifier exists in
the resource map afterwards. -/
theorem addContainer_idempotent (cfg : StatsEngineConfig) (res : Resolver)
    (e : StatsEngine) (cid : String) :
    addContainer cfg res (addContainer cfg res e cid) cid = addContainer cfg res e cid ∧
    (∀ t, res.resolveTask cid = some t → t.terminal = false → ¬t.family = "" →
      cfg.disableMetrics = false → containerTracked e.tasksToContainers cid = false →
      ((trackedPairs ((addContainer cfg res e cid).tasksToContainers)).map Prod.snd).count cid = 1) := by
  constructor
  · cases hres : res.resolveTask cid with
    | none =>
      rw [addContainer_of_resolve_none cfg res e cid hres,
        addContainer_of_resolve_none cfg res e cid hres]
    | some t =>
      by_cases ht : t.terminal = true
      · rw [addContainer_of_terminal cfg res e cid t hres ht,
          addContainer_of_terminal cfg res e cid t hres ht]
      · have ht' : t.terminal = false := by simpa using ht
        by_cases hf : t.family = ""
        · rw [addContainer_of_no_family cfg res e cid t hres ht' hf,
            addContainer_of_no_family cfg res e cid t hres ht' hf]
        · by_cases hdis : cfg.disableMetrics = true
          · rw [addContainer_disabled cfg res e cid t hres ht' hf hdis]
            by_cases htr : containerTracked e.tasksToHealthCheckContainers cid = true
            · simp only [htr, if_true]
              rw [addContainer_disabled cfg res _ cid t hres ht' hf hdis]
              simp [htr, insertDefinition_idem]
            · simp only [htr, if_false, Bool.false_eq_true]
              rw [addContainer_disabled cfg res _ cid t hres ht' hf hdis]
              have hnew : containerTracked
                  (addToBucket e.tasksToHealthCheckContainers t.arn cid) cid = true :=
                (containerTracked_addToBucket _ _ _ _).mpr (Or.inl rfl)
              simp [htr, hnew, insertDefinition_idem]
          · have hdis' : cfg.disableMetrics = false := by simpa using hdis
            rw [addContainer_enabled cfg res e cid t hres ht' hf hdis']
            simp only []
            by_cases htc : containerTracked e.tasksToContainers cid = true
            · simp only [htc, if_true]
              by_cases hhc : (healthCheckedContainer res cid &&
                  !containerTracked e.tasksToHealthCheckContainers cid) = true
              · simp only [hhc, if_true]
                rw [addContainer_enabled cfg res _ cid t hres ht' hf hdis']
                have hthb : containerTracked
                    (addToBucket e.tasksToHealthCheckContainers t.arn cid) cid = true :=
                  (containerTracked_addToBucket _ _ _ _).mpr (Or.inl rfl)
                simp [htc, hthb, insertDefinition_idem]
              · simp only [hhc, if_false, Bool.false_eq_true]
                rw [addContainer_enabled cfg res _ cid t hres ht' hf hdis']
                simp [htc, hhc, insertDefinition_idem]
            · have htc' : containerTracked e.tasksToContainers cid = false := by simpa using htc
              simp only [htc', if_false, Bool.false_eq_true]
              have htcb : containerTracked
                  (addToBucket e.tasksToContainers t.arn cid) cid = true :=
                (containerTracked_addToBucket _ _ _ _).mpr (Or.inl rfl)
              by_cases hhc : (healthCheckedContainer res cid &&
                  !containerTracked e.tasksToHealthCheckContainers cid) = true
              · simp only [hhc, if_true]
                rw [addContainer_enabled cfg res _ cid t hres ht' hf hdis']
                have hthb : containerTracked
                    (addToBucket e.tasksToHealthCheckContainers t.arn cid) cid = true :=
                  (containerTracked_addToBucket _ _ _ _).mpr (Or.inl rfl)
                simp [htcb, hthb, insertDefinition_idem]
              · simp only [hhc, if_false, Bool.false_eq_true]
                rw [addContainer_enabled cfg res _ cid t hres ht' hf hdis']
                simp [htcb, hhc, insertDefinition_idem]
  · intro t hres ht hf hdis htr
    rw [addContainer_tc_untracked cfg res e cid t hres ht hf hdis htr]
    have hperm := (trackedPairs_addToBucket e.tasksToContainers t.arn cid).map Prod.snd
    rw [hperm.count_eq, List.map_cons, List.count_cons_self]
    have hnotmem : cid ∉ (trackedPairs e.tasksToContainers).map Prod.snd := by
      intro hmem
      rw [← containerTracked_iff_mem_snd] at hmem
      rw [htr] at hmem
      exact Bool.false_ne_true hmem
    rw [List.count_eq_zero.mpr hnotmem]

/-- C6: with metrics collection globally disabled, `addContainer` on a
resolvable container leaves the resource map and the list of started
resource-collection routines untouched and registers the container in the
health-check map. -/
theorem addContainer_metricsDisabled_thm (cfg : StatsEngineConfig) (res : Resolver)
    (e : StatsEngine) (cid : String) (t : ECSTask)
    (hdis : cfg.disableMetrics = true)
    (h : res.resolveTask cid = some t) (ht : t.terminal = false) (hf : ¬t.family = "") :
    (addContainer cfg res e cid).tasksToContainers = e.tasksToContainers ∧
    (addContainer cfg res e cid).startedRoutines = e.startedRoutines ∧
    containerTracked (addContainer cfg res e cid).tasksToHealthCheckContainers cid = true := by
  rw [addContainer_disabled cfg res e cid t h ht hf hdis]
  by_cases htr : containerTracked e.tasksToHealthCheckContainers cid = true
  · simp [htr]
  · have hnew : containerTracked
        (addToBucket e.tasksToHealthCheckContainers t.arn cid) cid = true :=
      (containerTracked_addToBucket _ _ _ _).mpr (Or.inl rfl)
    simp [htr, hnew]

/-! ### Concrete fixtures used by the witnesses -/

/-- Engine configuration with metrics collection enabled. -/
def cfgEnabled : StatsEngineConfig := ⟨false⟩

/-- Engine configuration with metrics collection globally disabled. -/
def cfgDisabled : StatsEngineConfig := ⟨true⟩

/-- A running task "t1" of family "f1", version "1". -/
def t1Fixture : ECSTask := ⟨"t1", "f1", "1", false⟩

/-- A resolver mapping containers "c1" and "c2" to task "t1", every
container to docker-health-checked metadata, and everything else to
"not found". -/
def resFixture : Resolver :=
  ⟨fun c => if c = "c1" then some t1Fixture else if c = "c2" then some t1Fixture else none,
   fun _ => some ⟨"docker"⟩⟩

/-- Witness for C5: adding "c1" to the empty engine leaves exactly one
tracked (task, container) pair for "c1". -/
theorem addContainer_idempotent_witness :
    ((trackedPairs ((addContainer cfgEnabled resFixture emptyEngine "c1").tasksToContainers)).map
      Prod.snd).count "c1" = 1 :=
  (addContainer_idempotent cfgEnabled resFixture emptyEngine "c1").2 t1Fixture
    (by decide) rfl (by decide) rfl rfl

/-- Witness for C6 at the disabled configuration and container "c1". -/
theorem addContainer_metricsDisabled_witness :
    (addContainer cfgDisabled resFixture emptyEngine "c1").tasksToContainers =
      emptyEngine.tasksToContainers ∧
    (addContainer cfgDisabled resFixture emptyEngine "c1").startedRoutines =
      emptyEngine.startedRoutines ∧
    containerTracked (addContainer cfgDisabled resFixture emptyEngine "c1").tasksToHealthCheckContainers
      "c1" = true :=
  addContainer_metricsDisabled_thm cfgDisabled resFixture emptyEngine "c1" t1Fixture rfl
    (by decide) rfl (by decide)

/-! ### Restart reconciliation (synchronize) -/

/-- A container identifier `c` resolves to a trackable task owned by ARN
`a`: the Resolver maps it to a non-terminal task with a definition family,
whose ARN is `a`. -/
def resolvesToTracked (res : Resolver) (c a : String) : Prop :=
  ∃ t, res.resolveTask c = some t ∧ t.terminal = false ∧ ¬t.family = "" ∧ t.arn = a

theorem resolvesToTracked_none {res : Resolver} {c : String} (a : String)
    (hres : res.resolveTask c = none) : ¬resolvesToTracked res c a := by
  rintro ⟨t, htt, -⟩
  rw [hres] at htt
  exact Option.noConfusion htt

theorem resolvesToTracked_terminal {res : Resolver} {c : String} {t : ECSTask} (a : String)
    (hres : res.resolveTask c = some t) (ht : t.terminal = true) :
    ¬resolvesToTracked res c a := by
  rintro ⟨t', htt, ht', -⟩
  rw [hres] at htt
  cases Option.some.inj htt
  rw [ht] at ht'
  exact Bool.noConfusion ht'

theorem resolvesToTracked_noFamily {res : Resolver} {c : String} {t : ECSTask} (a : String)
    (hres : res.resolveTask c = some t) (hf : t.family = "") :
    ¬resolvesToTracked res c a := by
  rintro ⟨t', htt, -, hf', -⟩
  rw [hres] at htt
  cases Option.some.inj htt
  exact hf' hf

theorem resolvesToTracked_iff {res : Resolver} {c : String} {t : ECSTask} (a : String)
    (hres : res.resolveTask c = some t) (ht : t.terminal = false) (hf : ¬t.family = "") :
    resolvesToTracked res c a ↔ t.arn = a := by
  constructor
  · rintro ⟨t', htt, -, -, harn⟩
    rw [hres] at htt
    cases Option.some.inj htt
    exact harn
  · intro harn
    exact ⟨t, hres, ht, hf, harn⟩

theorem bool_eq_false_iff (b : Bool) : b = false ↔ ¬(b = true) := by
  cases b <;> simp

/-- Folding `addContainer` over a list of container identifiers tracks, on
top of the starting state, exactly the listed identifiers that resolve to a
trackable task and were not already tracked. -/
theorem foldl_addContainer_mem (cfg : StatsEngineConfig) (res : Resolver)
    (hdis : cfg.disableMetrics = false) :
    ∀ (listed : List String) (e : StatsEngine) (a c : String),
      (a, c) ∈ trackedPairs ((listed.foldl (addContainer cfg res) e).tasksToContainers) ↔
        ((a, c) ∈ trackedPairs e.tasksToContainers ∨
         (c ∈ listed ∧ containerTracked e.tasksToContainers c = false ∧
          resolvesToTracked res c a)) := by
  intro listed
  induction listed with
  | nil => intro e a c; simp
  | cons c0 rest ih =>
    intro e a c
    rw [List.foldl_cons, ih (addContainer cfg res e c0) a c]
    by_cases hc : c = c0
    · subst hc
      cases hres : res.resolveTask c with
      | none =>
        rw [addContainer_of_resolve_none cfg res e c hres]
        have hP := resolvesToTracked_none a hres
        simp [List.mem_cons, hP]
      | some t0 =>
        by_cases ht0 : t0.terminal = true
        · rw [addContainer_of_terminal cfg res e c t0 hres ht0]
          have hP := resolvesToTracked_terminal a hres ht0
          simp [List.mem_cons, hP]
        · have ht0' : t0.terminal = false := by simpa using ht0
          by_cases hf0 : t0.family = ""
          · rw [addContainer_of_no_family cfg res e c t0 hres ht0' hf0]
            have hP := resolvesToTracked_noFamily a hres hf0
            simp [List.mem_cons, hP]
          · have hP := resolvesToTracked_iff a hres ht0' hf0
            by_cases htr0 : containerTracked e.tasksToContainers c = true
            · rw [addContainer_tc_tracked cfg res e c t0 hres ht0' hf0 hdis htr0]
              simp [List.mem_cons, htr0, hP]
            · have htr0' : containerTracked e.tasksToContainers c = false := by
                simpa using htr0
              rw [addContainer_tc_untracked cfg res e c t0 hres ht0' hf0 hdis htr0']
              have hmem := mem_trackedPairs_addToBucket e.tasksToContainers t0.arn c (a, c)
              have htrb : containerTracked (addToBucket e.tasksToContainers t0.arn c) c = true :=
                (containerTracked_addToBucket _ _ _ _).mpr (Or.inl rfl)
              rw [hmem, htrb]
              constructor
              · rintro ((h | h) | ⟨-, hff, -⟩)
                · exact Or.inr ⟨List.mem_cons_self _ _, htr0', hP.mpr (congrArg Prod.fst h).symm⟩
                · exact Or.inl h
                · exact Bool.noConfusion hff
              · rintro (h | ⟨-, -, hPp⟩)
                · exact Or.inl (Or.inr h)
                · refine Or.inl (Or.inl ?_)
                  rw [hP] at hPp
                  rw [Prod.ext_iff]
                  exact ⟨hPp.symm, rfl⟩
    · -- c ≠ c0 : the step for c0 never adds or removes a pair for c
      have hstep : ∀ e' : StatsEngine,
          ((a, c) ∈ trackedPairs ((addContainer cfg res e' c0).tasksToContainers) ↔
            (a, c) ∈ trackedPairs e'.tasksToContainers ∨ False) ∧
          (containerTracked (addContainer cfg res e' c0).tasksToContainers c =
            containerTracked e'.tasksToContainers c) := by
        intro e'
        cases hres : res.resolveTask c0 with
        | none => rw [addContainer_of_resolve_none cfg res e' c0 hres]; simp
        | some t0 =>
          by_cases ht0 : t0.terminal = true
          · rw [addContainer_of_terminal cfg res e' c0 t0 hres ht0]; simp
          · have ht0' : t0.terminal = false := by simpa using ht0
            by_cases hf0 : t0.family = ""
            · rw [addContainer_of_no_family cfg res e' c0 t0 hres ht0' hf0]; simp
            · by_cases htr0 : containerTracked e'.tasksToContainers c0 = true
              · rw [addContainer_tc_tracked cfg res e' c0 t0 hres ht0' hf0 hdis htr0]; simp
              · have htr0' : containerTracked e'.tasksToContainers c0 = false := by
                  simpa using htr0
                rw [addContainer_tc_untracked cfg res e' c0 t0 hres ht0' hf0 hdis htr0']
                constructor
                · rw [mem_trackedPairs_addToBucket]
                  simp [Prod.ext_iff, hc]
                · by_cases hTr : containerTracked e'.tasksToContainers c = true
                  · rw [hTr]
                    exact (containerTracked_addToBucket _ _ _ _).mpr (Or.inr hTr)
                  · have hTr' : containerTracked e'.tasksToContainers c = false := by
                      simpa using hTr
                    rw [hTr', bool_eq_false_iff]
                    intro habs
                    rcases (containerTracked_addToBucket _ _ _ _).mp habs with h | h
                    · exact hc h
                    · exact hTr h
      rw [(hstep e).1, (hstep e).2]
      simp [List.mem_cons, hc]

/-- Folding `addContainer` never creates a duplicate Tracker: if no
container identifier is tracked twice beforehand, none is afterwards. -/
theorem foldl_addContainer_nodup (cfg : StatsEngineConfig) (res : Resolver)
    (hdis : cfg.disableMetrics = false) :
    ∀ (listed : List String) (e : StatsEngine),
      ((trackedPairs e.tasksToContainers).map Prod.snd).Nodup →
      ((trackedPairs ((listed.foldl (addContainer cfg res) e).tasksToContainers)).map
        Prod.snd).Nodup := by
  intro listed
  induction listed with
  | nil => intro e h; simpa using h
  | cons c0 rest ih =>
    intro e h
    rw [List.foldl_cons]
    apply ih
    cases hres : res.resolveTask c0 with
    | none => rw [addContainer_of_resolve_none cfg res e c0 hres]; exact h
    | some t0 =>
      by_cases ht0 : t0.terminal = true
      · rw [addContainer_of_terminal cfg res e c0 t0 hres ht0]; exact h
      · have ht0' : t0.terminal = false := by simpa using ht0
        by_cases hf0 : t0.family = ""
        · rw [addContainer_of_no_family cfg res e c0 t0 hres ht0' hf0]; exact h
        · by_cases htr0 : containerTracked e.tasksToContainers c0 = true
          · rw [addContainer_tc_tracked cfg res e c0 t0 hres ht0' hf0 hdis htr0]; exact h
          · have htr0' : containerTracked e.tasksToContainers c0 = false := by simpa using htr0
            rw [addContainer_tc_untracked cfg res e c0 t0 hres ht0' hf0 hdis htr0']
            have hperm := (trackedPairs_addToBucket e.tasksToContainers t0.arn c0).map Prod.snd
            rw [hperm.nodup_iff, List.map_cons]
            refine List.nodup_cons.mpr ⟨?_, h⟩
            intro hmem
            rw [← containerTracked_iff_mem_snd, htr0'] at hmem
            exact Bool.noConfusion hmem

/-- C3: restart reconciliation starts from no assumed in-memory state and
adds every container the runtime lists through the same `addContainer` path
as live add events; afterwards the Task Index tracks exactly the listed
containers that resolve to a trackable task, each under its owning task's
ARN, and no container identifier is tracked more than once (no duplicate
Trackers). -/
theorem synchronizeState_thm (cfg : StatsEngineConfig) (res : Resolver)
    (listed : List String) (hdis : cfg.disableMetrics = false) :
    (∀ a c, (a, c) ∈ trackedPairs ((synchronizeState cfg res listed).tasksToContainers) ↔
      (c ∈ listed ∧ resolvesToTracked res c a)) ∧
    ((trackedPairs ((synchronizeState cfg res listed).tasksToContainers)).map Prod.snd).Nodup := by
  constructor
  · intro a c
    rw [synchronizeState, foldl_addContainer_mem cfg res hdis listed emptyEngine a c]
    simp [emptyEngine, trackedPairs, containerTracked]
  · exact foldl_addContainer_nodup cfg res hdis listed emptyEngine
      (by simp [emptyEngine, trackedPairs])

/-- Witness for C3: synchronizing with listed containers "c1", "c2" (both
resolving to task "t1") tracks the pair ("t1", "c1"). -/
theorem synchronizeState_witness :
    ("t1", "c1") ∈ trackedPairs ((synchronizeState cfgEnabled resFixture
      ["c1", "c2"]).tasksToContainers) :=
  ((synchronizeState_thm cfgEnabled resFixture ["c1", "c2"] rfl).1 "t1" "c1").mpr
    ⟨by decide, ⟨t1Fixture, by decide, rfl, by decide, rfl⟩⟩

/-! ## On-demand metrics queries

Modelled from the spec: `GetInstanceMetrics` aggregates, for every task in
the Task Index whose resource-container map is non-empty (and whose
definition identity is cached), one per-task telemetry entry, and returns
`EmptyMetricsError` when no task qualifies; `GetTaskHealthMetrics` does the
same over the health-check map with `EmptyHealthMetricsError`.  A per-task
entry is modelled as the task's (ARN, container list) pair.
-/

/-- The typed errors of the on-demand queries. -/
inductive EngineError where
  | emptyMetrics
  | emptyHealthMetrics
deriving DecidableEq

/-- The per-task telemetry entries: tasks with a non-empty resource
container map and a cached task definition. -/
def taskMetricsList (e : StatsEngine) : List (String × List String) :=
  e.tasksToContainers.filter
    (fun p => !p.2.isEmpty && (lookupMap e.tasksToDefinitions p.1).isSome)

/-- The per-task health entries: tasks with a non-empty health-check
container map and a cached task definition. -/
def taskHealthList (e : StatsEngine) : List (String × List String) :=
  e.tasksToHealthCheckContainers.filter
    (fun p => !p.2.isEmpty && (lookupMap e.tasksToDefinitions p.1).isSome)

/-- Modelled from the spec: the instance metrics query. -/
def GetInstanceMetrics (e : StatsEngine) :
    Except EngineError (List (String × List String)) :=
  if (taskMetricsList e).isEmpty then Except.error EngineError.emptyMetrics
  else Except.ok (taskMetricsList e)

/-- Modelled from the spec: the task health metrics query. -/
def GetTaskHealthMetrics (e : StatsEngine) :
    Except EngineError (List (String × List String)) :=
  if (taskHealthList e).isEmpty then Except.error EngineError.emptyHealthMetrics
  else Except.ok (taskHealthList e)

theorem emptyGate_spec {α : Type} (l : List α) (err : EngineError) :
    ((if l.isEmpty then Except.error err else Except.ok l) =
      (Except.error err : Except EngineError (List α)) ↔ l = []) ∧
    (∀ l', (if l.isEmpty then Except.error err else Except.ok l) = Except.ok l' → l' = l) := by
  by_cases h : l.isEmpty
  · have hnil : l = [] := by simpa using h
    constructor
    · simp [h, hnil]
    · intro l'
      simp [h]
  · have hnil : ¬l = [] := by simpa using h
    constructor
    · simp [h, hnil]
    · intro l'
      simp [h]
      intro he
      exact he.symm

/-- C4: `GetInstanceMetrics` returns `EmptyMetricsError` exactly when no
task in the Task Index has at least one resource-tracked container (even if
task entries exist), and otherwise returns exactly the tasks with at least
one resource container; `GetTaskHealthMetrics` behaves analogously over the
health-check map with `EmptyHealthMetricsError`.  The hypotheses record the
Task Index invariant that every indexed task has a cached definition. -/
theorem getInstanceMetrics_empty_iff (e : StatsEngine)
    (hdefs : ∀ p ∈ e.tasksToContainers, (lookupMap e.tasksToDefinitions p.1).isSome)
    (hdefsH : ∀ p ∈ e.tasksToHealthCheckContainers, (lookupMap e.tasksToDefinitions p.1).isSome) :
    (GetInstanceMetrics e = Except.error EngineError.emptyMetrics ↔
      ∀ p ∈ e.tasksToContainers, p.2 = []) ∧
    (∀ l, GetInstanceMetrics e = Except.ok l →
      l = e.tasksToContainers.filter (fun p => !p.2.isEmpty)) ∧
    (GetTaskHealthMetrics e = Except.error EngineError.emptyHealthMetrics ↔
      ∀ p ∈ e.tasksToHealthCheckContainers, p.2 = []) ∧
    (∀ l, GetTaskHealthMetrics e = Except.ok l →
      l = e.tasksToHealthCheckContainers.filter (fun p => !p.2.isEmpty)) := by
  have h1 : taskMetricsList e = e.tasksToContainers.filter (fun p => !p.2.isEmpty) := by
    unfold taskMetricsList
    apply List.filter_congr
    intro p hp
    rw [hdefs p hp, Bool.and_true]
  have h2 : taskHealthList e = e.tasksToHealthCheckContainers.filter (fun p => !p.2.isEmpty) := by
    unfold taskHealthList
    apply List.filter_congr
    intro p hp
    rw [hdefsH p hp, Bool.and_true]
  have hg1 := emptyGate_spec (taskMetricsList e) EngineError.emptyMetrics
  have hg2 := emptyGate_spec (taskHealthList e) EngineError.emptyHealthMetrics
  refine ⟨?_, ?_, ?_, ?_⟩
  · rw [GetInstanceMetrics.eq_def, hg1.1, h1, List.filter_eq_nil_iff]
    constructor
    · intro hall p hp
      have := hall p hp
      simpa using this
    · intro hall p hp
      simp [hall p hp]
  · intro l hok
    rw [← h1]
    exact hg1.2 l hok
  · rw [GetTaskHealthMetrics.eq_def, hg2.1, h2, List.filter_eq_nil_iff]
    constructor
    · intro hall p hp
      have := hall p hp
      simpa using this
    · intro hall p hp
      simp [hall p hp]
  · intro l hok
    rw [← h2]
    exact hg2.2 l hok

/-- A Task Index with task "t1" present but no tracked containers in either
map, and a cached definition for "t1". -/
def engineIdleFixture : StatsEngine :=
  ⟨[("t1", [])], [("t1", [])], [("t1", ("f1", "1"))], []⟩

/-- Witness for C4: on an index with a task but no containers, both queries
report their empty-metrics errors. -/
theorem getInstanceMetrics_empty_iff_witness :
    GetInstanceMetrics engineIdleFixture = Except.error EngineError.emptyMetrics ∧
    GetTaskHealthMetrics engineIdleFixture = Except.error EngineError.emptyHealthMetrics :=
  ⟨(getInstanceMetrics_empty_iff engineIdleFixture (by decide) (by decide)).1.mpr (by decide),
   (getInstanceMetrics_empty_iff engineIdleFixture (by decide) (by decide)).2.2.1.mpr (by decide)⟩

/-! ## Publish-channel backpressure

Modelled from the spec: the engine's output channels are bounded buffered
channels; on each publish tick the engine attempts a non-blocking send and,
when the buffer is full, drops the tick's newly produced message without
touching the queued backlog and without raising an error to the publish
loop (the drop is only recorded in the returned flag, which the loop
ignores).
-/

/-- A bounded channel: a FIFO buffer of at most `capacity` messages. -/
structure BoundedChan (α : Type) where
  capacity : Nat
  buffer : List α
deriving DecidableEq

/-- A non-blocking send: enqueue when there is room, otherwise return the
channel unchanged together with `false` ("dropped"). -/
def trySend {α : Type} (ch : BoundedChan α) (m : α) : BoundedChan α × Bool :=
  if ch.buffer.length < ch.capacity then ({ ch with buffer := ch.buffer ++ [m] }, true)
  else (ch, false)

/-- Receive the oldest queued message, if any. -/
def receive {α : Type} (ch : BoundedChan α) : Option α × BoundedChan α :=
  match ch.buffer with
  | [] => (none, ch)
  | m :: rest => (some m, { ch with buffer := rest })

/-- One publish tick's channel interaction: the send result flag is
discarded, so a drop is never raised as an error to the publish loop. -/
def publishTick {α : Type} (ch : BoundedChan α) (msg : α) : BoundedChan α :=
  (trySend ch msg).1

/-- C2: on a tick whose output channel is already full, the non-blocking
send drops the newly produced message — the channel (capacity and queued
backlog) is returned unchanged, nothing queued is overwritten or evicted,
and the only failure signal is the ignored `false` flag; and once the
backlog has drained, a later tick's message is the next one received. -/
theorem publish_backpressure (α : Type) (ch : BoundedChan α) (m m3 : α)
    (hfull : ch.buffer.length = ch.capacity) (hcap : 0 < ch.capacity) :
    trySend ch m = (ch, false) ∧
    publishTick ch m = ch ∧
    (receive (publishTick ⟨ch.capacity, []⟩ m3)).1 = some m3 := by
  have hnot : ¬ch.buffer.length < ch.capacity := by omega
  refine ⟨?_, ?_, ?_⟩
  · simp [trySend, hnot]
  · simp [publishTick, trySend, hnot]
  · simp [publishTick, trySend, receive, hcap]

/-- Witness for C2: a capacity-1 channel holding one message drops the
second tick's message, and after the backlog drains the third tick's
message is the next one received. -/
theorem publish_backpressure_witness :
    trySend (⟨1, [10]⟩ : BoundedChan Nat) 20 = (⟨1, [10]⟩, false) ∧
    publishTick (⟨1, [10]⟩ : BoundedChan Nat) 20 = ⟨1, [10]⟩ ∧
    (receive (publishTick (⟨1, []⟩ : BoundedChan Nat) 30)).1 = some 30 :=
  publish_backpressure Nat ⟨1, [10]⟩ 20 30 (by decide) (by decide)

/-! ## Volume metrics fetcher

Modelled from the spec: `fetchEBSVolumeMetrics` iterates a task's volume
attachments; for each EBS attachment it queries the volume-metrics client
(with a bounded deadline, abstracted as a query that either returns
used/capacity byte counts or fails, deadline expiry included in failure).
A success becomes a single-sample Aggregated Statistic Set per counter; a
failure is omitted and iteration continues; the result is a plain list, so
an all-failure task yields an empty list rather than an error.
-/

/-- An EBS volume attachment of a task. -/
structure TaskVolume where
  volumeId : String
  volumeName : String
  sourceVolumeHostPath : String
  isEBS : Bool
deriving DecidableEq

/-- The per-volume metric entry of a telemetry message. -/
structure VolumeMetric where
  volumeId : String
  volumeName : String
  utilized : CWStatsSet
  size : CWStatsSet
deriving DecidableEq

/-- A single-sample Aggregated Statistic Set: min = max = sum = value and
count = 1. -/
def singleSampleStatsSet (v : Nat) : CWStatsSet := ⟨v, v, v, 1⟩

/-- Modelled from the spec: fetch volume metrics for a task's EBS volumes.
`getVolumeMetrics` abstracts the volume-metrics client call, keyed by
volume id and source host path; `none` is any failure, deadline exceeded
included. -/
def fetchEBSVolumeMetrics (getVolumeMetrics : String → String → Option (Nat × Nat))
    (vols : List TaskVolume) : List VolumeMetric :=
  vols.filterMap (fun v =>
    if v.isEBS then
      match getVolumeMetrics v.volumeId v.sourceVolumeHostPath with
      | some m => some ⟨v.volumeId, v.volumeName, singleSampleStatsSet m.1, singleSampleStatsSet m.2⟩
      | none => none
    else none)

/-- C7: every successful per-volume query is converted to single-sample
statistic sets with min = max = sum = value and count = 1 and appears in
the result; a volume whose query fails is omitted while the others are
kept; and if every (EBS) volume's query fails the result is the empty list
— an empty metrics list, not an error. -/
theorem fetchEBSVolumeMetrics_thm (g : String → String → Option (Nat × Nat))
    (vols : List TaskVolume) :
    ((∀ v ∈ vols, v.isEBS = true → g v.volumeId v.sourceVolumeHostPath = none) →
      fetchEBSVolumeMetrics g vols = []) ∧
    (∀ v ∈ vols, ∀ u c, v.isEBS = true → g v.volumeId v.sourceVolumeHostPath = some (u, c) →
      (⟨v.volumeId, v.volumeName, ⟨u, u, u, 1⟩, ⟨c, c, c, 1⟩⟩ : VolumeMetric) ∈
        fetchEBSVolumeMetrics g vols) ∧
    (∀ m ∈ fetchEBSVolumeMetrics g vols, ∃ v ∈ vols, v.isEBS = true ∧
      ∃ u c, g v.volumeId v.sourceVolumeHostPath = some (u, c) ∧
        m = ⟨v.volumeId, v.volumeName, ⟨u, u, u, 1⟩, ⟨c, c, c, 1⟩⟩) := by
  refine ⟨?_, ?_, ?_⟩
  · intro hall
    rw [fetchEBSVolumeMetrics, List.filterMap_eq_nil_iff]
    intro v hv
    by_cases he : v.isEBS = true
    · rw [if_pos he, hall v hv he]
    · rw [if_neg he]
  · intro v hv u c he hq
    apply List.mem_filterMap.mpr
    refine ⟨v, hv, ?_⟩
    rw [if_pos he, hq]
    rfl
  · intro m hm
    rcases List.mem_filterMap.mp hm with ⟨v, hv, hsome⟩
    by_cases he : v.isEBS = true
    · rw [if_pos he] at hsome
      cases hq : g v.volumeId v.sourceVolumeHostPath with
      | none => rw [hq] at hsome; exact Option.noConfusion hsome
      | some uc =>
        rw [hq] at hsome
        refine ⟨v, hv, he, uc.1, uc.2, by rw [hq], ?_⟩
        have := Option.some.inj hsome
        rw [← this]
        rfl
    · rw [if_neg he] at hsome
      exact Option.noConfusion hsome

/-- Witness for C7: with one volume succeeding (used 15 GiB, capacity
20 GiB) the converted single-sample entry is produced. -/
theorem fetchEBSVolumeMetrics_witness :
    (⟨"vol-12345", "test-volume", ⟨15, 15, 15, 1⟩, ⟨20, 20, 20, 1⟩⟩ : VolumeMetric) ∈
      fetchEBSVolumeMetrics (fun i _ => if i = "vol-12345" then some (15, 20) else none)
        [⟨"vol-12345", "test-volume", "taskarn_vol-12345", true⟩] :=
  (fetchEBSVolumeMetrics_thm (fun i _ => if i = "vol-12345" then some (15, 20) else none)
    [⟨"vol-12345", "test-volume", "taskarn_vol-12345", true⟩]).2.1
    ⟨"vol-12345", "test-volume", "taskarn_vol-12345", true⟩ (by decide) 15 20 rfl (by decide)

/-! ## S3 multi-source downloader (embedded from the `cache` package source)

`s3BucketDownloader.download` creates a temp file, runs the S3 download
into it, and returns `file.Name(), err`; a deferred handler then closes the
file and, when the local `err` is still nil, assigns the close error to it.
Because the Go function's return values are unnamed, the return slots are
evaluated before the deferred handler runs, so the handler's assignment
cannot change what is returned.  The external effects (`fs.TempFile`, the
S3 `Download` call, `file.Close`) are abstracted as result-valued fields.

`s3Downloader.downloadFile` tries each bucket downloader in the order the
downloaders were appended, returning the first success, and a fixed error
with an empty path when every source fails.
-/

/-- One bucket downloader with its abstracted external effects per file
name: the temp-file creation result (`none` = failure), the S3 download
error (`none` = success) and the close error (`none` = success). -/
structure s3BucketDownloader where
  bucket : String
  region : String
  tempFile : String → Option String
  downloadErr : String → Option String
  closeErr : String → Option String

/-- `s3BucketDownloader.download`.  The first component is the pair of
values the Go function actually returns (its return slots, evaluated at
`return file.Name(), err` before the deferred close handler runs — the
function's return values are unnamed, so the handler cannot alter them);
the second component is the final value of the local variable `err` after
the deferred handler `if err == nil { err = cerr }` has run. -/
def s3BucketDownloader.download (bd : s3BucketDownloader) (fileName : String) :
    (String × Option String) × Option String :=
  match bd.tempFile fileName with
  | none =>
    -- `return "", errors.Wrap(err, ...)`: the defer is not yet registered.
    (("", some "could not create local file during download"),
     some "could not create local file during download")
  | some f =>
    let err := bd.downloadErr fileName
    let slots := (f, err)
    let errFinal := if err = none then bd.closeErr fileName else err
    (slots, errFinal)

/-- The multi-source downloader: an ordered list of bucket downloaders. -/
structure s3Downloader where
  bucketDownloaders : List s3BucketDownloader

/-- `s3Downloader.addBucketDownloader` appends a source to the list. -/
def s3Downloader.addBucketDownloader (d : s3Downloader) (bd : s3BucketDownloader) :
    s3Downloader :=
  { d with bucketDownloaders := d.bucketDownloaders ++ [bd] }

/-- The loop body of `s3Downloader.downloadFile`: try each downloader in
order, returning the first result whose error is nil. -/
def downloadFileLoop (bds : List s3BucketDownloader) (fileName : String) :
    String × Option String :=
  match bds with
  | [] => ("", some "failed to download file from s3")
  | bd :: rest =>
    match (bd.download fileName).1 with
    | (name, none) => (name, none)
    | (_, some _) => downloadFileLoop rest fileName

/-- `s3Downloader.downloadFile`. -/
def s3Downloader.downloadFile (d : s3Downloader) (fileName : String) :
    String × Option String :=
  downloadFileLoop d.bucketDownloaders fileName

/-- C9: `downloadFile` tries the bucket downloaders sequentially in the
order they were added, returns the first successful download's local file
path with a nil error, and returns the fixed error with no path exactly
when every source fails (in particular for an empty source list). -/
theorem downloadFile_thm (d : s3Downloader) (fileName : String) :
    ((∀ bd ∈ d.bucketDownloaders, ((bd.download fileName).1.2).isSome) →
      d.downloadFile fileName = ("", some "failed to download file from s3")) ∧
    (∀ pre bd post, d.bucketDownloaders = pre ++ bd :: post →
      (∀ b ∈ pre, ((b.download fileName).1.2).isSome) →
      (bd.download fileName).1.2 = none →
      d.downloadFile fileName = ((bd.download fileName).1.1, none)) ∧
    (∀ bd, (d.addBucketDownloader bd).bucketDownloaders = d.bucketDownloaders ++ [bd]) := by
  have hfail : ∀ bds : List s3BucketDownloader,
      (∀ bd ∈ bds, ((bd.download fileName).1.2).isSome) →
      downloadFileLoop bds fileName = ("", some "failed to download file from s3") := by
    intro bds
    induction bds with
    | nil => intro _; rfl
    | cons b rest ih =>
      intro hall
      have hb := hall b (List.mem_cons_self b rest)
      rw [downloadFileLoop]
      cases hr : (b.download fileName).1 with
      | mk name errv =>
        cases errv with
        | none => rw [hr] at hb; simp at hb
        | some msg =>
          exact ih (fun x hx => hall x (List.mem_cons_of_mem b hx))
  have hfirst : ∀ (pre : List s3BucketDownloader) (bd : s3BucketDownloader)
      (post : List s3BucketDownloader),
      (∀ b ∈ pre, ((b.download fileName).1.2).isSome) →
      (bd.download fileName).1.2 = none →
      downloadFileLoop (pre ++ bd :: post) fileName = ((bd.download fileName).1.1, none) := by
    intro pre
    induction pre with
    | nil =>
      intro bd post _ hok
      rw [List.nil_append, downloadFileLoop]
      cases hr : (bd.download fileName).1 with
      | mk name errv =>
        cases errv with
        | none => rfl
        | some msg => rw [hr] at hok; simp at hok
    | cons b rest ih =>
      intro bd post hall hok
      have hb := hall b (List.mem_cons_self b rest)
      rw [List.cons_append, downloadFileLoop]
      cases hr : (b.download fileName).1 with
      | mk name errv =>
        cases errv with
        | none => rw [hr] at hb; simp at hb
        | some msg =>
          exact ih bd post (fun x hx => hall x (List.mem_cons_of_mem b hx)) hok
  refine ⟨?_, ?_, ?_⟩
  · intro hall
    exact hfail d.bucketDownloaders hall
  · intro pre bd post hsplit hall hok
    rw [s3Downloader.downloadFile, hsplit]
    exact hfirst pre bd post hall hok
  · intro bd
    rfl

/-- A bucket downloader whose S3 download fails. -/
def bdFail : s3BucketDownloader :=
  ⟨"bucket1", "us-east-1", fun _ => some "tmp1", fun _ => some "download failed", fun _ => none⟩

/-- A bucket downloader whose S3 download succeeds into temp file "tmp2". -/
def bdOk : s3BucketDownloader :=
  ⟨"bucket2", "us-west-2", fun _ => some "tmp2", fun _ => none, fun _ => none⟩

/-- A multi-source downloader: first source failing, second succeeding. -/
def dFixture : s3Downloader := ⟨[bdFail, bdOk]⟩

/-- Witness for C9: with the first source failing and the second
succeeding, `downloadFile` returns the second source's local path with a
nil error. -/
theorem downloadFile_thm_witness :
    dFixture.downloadFile "file" = ((bdOk.download "file").1.1, none) :=
  (downloadFile_thm dFixture "file").2.1 [bdFail] bdOk [] rfl
    (by intro b hb; rcases List.mem_singleton.mp hb with rfl; rfl) rfl

/-- C10: when the S3 `Download` call succeeds, `download` returns the temp
file's name with a nil error even if closing the file afterwards fails:
the return slots are evaluated before the deferred close handler runs and,
the Go function's return values being unnamed, the handler's assignment
reaches only the local `err` variable (second conjunct), never the
already-evaluated returned pair (first conjunct). -/
theorem download_close_error_not_returned (bd : s3BucketDownloader) (fileName f : String)
    (htf : bd.tempFile fileName = some f) (hdl : bd.downloadErr fileName = none) :
    (bd.download fileName).1 = (f, none) ∧
    (bd.download fileName).2 = bd.closeErr fileName := by
  simp [s3BucketDownloader.download, htf, hdl]

/-- A bucket downloader whose download succeeds but whose `Close` fails. -/
def bdCloseFail : s3BucketDownloader :=
  ⟨"bucket3", "eu-west-1", fun _ => some "tmp3", fun _ => none, fun _ => some "close failed"⟩

/-- Witness for C10: the returned error is nil although `Close` failed, and
the deferred handler captured the close error only into the local `err`. -/
theorem download_close_error_not_returned_witness :
    (bdCloseFail.download "file").1 = ("tmp3", none) ∧
    (bdCloseFail.download "file").2 = bdCloseFail.closeErr "file" :=
  download_close_error_not_returned bdCloseFail "file" "tmp3" rfl rfl
